import Mathlib

/-!
Shallow embedding of the ddd-typical-scenario-ts repository: an in-memory
record store (`InMemoryDatabase<T>`), a repository wrapper
(`UserRepositoryImpl`) that signals "User not found" on a miss, and the
pure-delegation layers (`UserService`, `UserApplicationService`,
`UserController`).  JavaScript arrays become Lean lists (`push` appends at
the end, `Array.prototype.find` scans from the front), the thrown
`Error("User not found")` becomes an `Except` error value, and each
mutating method becomes a function from the receiver state to the updated
state.
-/

namespace DDD

/-- Modelled from the spec: the entity file `src/domain/entities/user.ts`
is not present under `src/`.  Per the spec, construction of a record
requires three fields supplied by the caller: an identifier (string), a
display name (string), and a secret/credential (string), stored verbatim
with no hashing, validation, or normalization. -/
structure User where
  id : String
  username : String
  password : String
deriving DecidableEq

/-- Embedding of `InMemoryDatabase<T>` (infrastructure layer): the state is
the private field `store: T[] = []`, an ordered sequence of records. -/
structure InMemoryDatabase (T : Type) where
  store : List T
deriving DecidableEq

/-- Embedding of `new InMemoryDatabase<T>()`: the field initializer sets
`store` to the empty array. -/
def InMemoryDatabase.mkNew (T : Type) : InMemoryDatabase T := ⟨[]⟩

/-- Embedding of `getById(id) { return this.store.find((item: any) => item.id === id); }`.
The source accesses `item.id` through an `any` cast; the embedding takes
the field accessor `itemId` as a parameter.  `Array.prototype.find`
returns the first element (in array order) satisfying the predicate, or
`undefined` (here `none`) when no element matches. -/
def InMemoryDatabase.getById {T : Type} (itemId : T → String)
    (db : InMemoryDatabase T) (id : String) : Option T :=
  db.store.find? (fun item => itemId item == id)

/-- Embedding of `add(item) { this.store.push(item); }`: `push` appends the
item at the end of the array, and nothing else in the state changes. -/
def InMemoryDatabase.add {T : Type} (db : InMemoryDatabase T) (item : T) :
    InMemoryDatabase T :=
  { store := db.store ++ [item] }

/-- Method-call view of `InMemoryDatabase.getById`: a call on a receiver
yields the returned value together with the receiver's state after the
body has run.  The body of `getById` only reads `this.store` (it calls
`find`, which does not mutate the array) and assigns to no field, so the
post-state is the receiver's state itself. -/
def InMemoryDatabase.getByIdCall {T : Type} (itemId : T → String)
    (db : InMemoryDatabase T) (id : String) : Option T × InMemoryDatabase T :=
  (db.getById itemId id, db)

/-- The single error kind of the system: `throw new Error("User not found")`
in `UserRepositoryImpl.getById`. -/
inductive RepoError where
  | userNotFound
deriving DecidableEq

/-- Embedding of `UserRepositoryImpl` (infrastructure layer): its state is
the private field `database: InMemoryDatabase<User>`. -/
structure UserRepositoryImpl where
  database : InMemoryDatabase User
deriving DecidableEq

/-- Embedding of the `UserRepositoryImpl` constructor, which sets
`this.database = new InMemoryDatabase<User>()`. -/
def UserRepositoryImpl.mkNew : UserRepositoryImpl :=
  ⟨InMemoryDatabase.mkNew User⟩

/-- Embedding of `UserRepositoryImpl.getById`: it calls
`this.database.getById(id)` and tests `if (!user) throw new Error("User not found")`.
The optional value is a `User` object or `undefined`; a JavaScript object
is always truthy, so `!user` holds exactly when the lookup returned
`undefined` (`none`). -/
def UserRepositoryImpl.getById (repo : UserRepositoryImpl) (id : String) :
    Except RepoError User :=
  match repo.database.getById User.id id with
  | none => .error .userNotFound
  | some user => .ok user

/-- Embedding of `UserRepositoryImpl.add`: delegates to `this.database.add(user)`. -/
def UserRepositoryImpl.add (repo : UserRepositoryImpl) (user : User) :
    UserRepositoryImpl :=
  ⟨repo.database.add user⟩

/-- Method-call view of `UserRepositoryImpl.getById`: returned value (or
thrown error) together with the receiver's state after the call.  The body
reads `this.database` and assigns to no field, on the return path and on
the throw path alike. -/
def UserRepositoryImpl.getByIdCall (repo : UserRepositoryImpl) (id : String) :
    Except RepoError User × UserRepositoryImpl :=
  (repo.getById id, repo)

/-- Folding `add` over a list of users: the store state after inserting
the users one by one, in order. -/
def UserRepositoryImpl.addAll (repo : UserRepositoryImpl) (users : List User) :
    UserRepositoryImpl :=
  users.foldl UserRepositoryImpl.add repo

/-- Embedding of `UserService` (domain layer): holds the injected
`userRepository`. -/
structure UserService where
  userRepository : UserRepositoryImpl

/-- Embedding of `UserService.getUser`: `return this.userRepository.getById(id);`. -/
def UserService.getUser (s : UserService) (id : String) : Except RepoError User :=
  s.userRepository.getById id

/-- Embedding of `UserService.createUser`: `this.userRepository.add(user);`. -/
def UserService.createUser (s : UserService) (user : User) : UserService :=
  ⟨s.userRepository.add user⟩

/-- Embedding of `UserApplicationService` (application layer): holds the
injected `userService`. -/
structure UserApplicationService where
  userService : UserService

/-- Embedding of `UserApplicationService.getUser`: `return this.userService.getUser(id);`. -/
def UserApplicationService.getUser (a : UserApplicationService) (id : String) :
    Except RepoError User :=
  a.userService.getUser id

/-- Embedding of `UserApplicationService.createUser`: `this.userService.createUser(user);`. -/
def UserApplicationService.createUser (a : UserApplicationService) (user : User) :
    UserApplicationService :=
  ⟨a.userService.createUser user⟩

/-- Embedding of `UserController` (interfaces layer): holds the injected
`userApplicationService`. -/
structure UserController where
  userApplicationService : UserApplicationService

/-- Embedding of `UserController.getUser`: `return this.userApplicationService.getUser(id);`. -/
def UserController.getUser (c : UserController) (id : String) :
    Except RepoError User :=
  c.userApplicationService.getUser id

/-- Embedding of `UserController.createUser`: constructs
`new User(id, username, password)` from the three caller-supplied strings
and passes it to `this.userApplicationService.createUser(user)`. -/
def UserController.createUser (c : UserController)
    (id username password : String) : UserController :=
  ⟨c.userApplicationService.createUser (User.mk id username password)⟩

/-- The two operations the store supports. -/
inductive Op where
  | insert (u : User)
  | lookup (id : String)
deriving DecidableEq

/-- One operation on the database state: `insert` runs `add`, `lookup`
runs the `getById` call and keeps the resulting receiver state. -/
def step (db : InMemoryDatabase User) : Op → InMemoryDatabase User
  | .insert u => db.add u
  | .lookup id => (db.getByIdCall User.id id).2

/-- Running a sequence of operations from a starting database state. -/
def run (db : InMemoryDatabase User) (ops : List Op) : InMemoryDatabase User :=
  ops.foldl step db

/-- Fuel-bounded linear scan: performs at most `fuel` loop iterations and
returns `none` when the fuel runs out before an answer is reached.  Used
to express that the lookup scan completes within as many iterations as
the store has records. -/
def findFuel {T : Type} (p : T → Bool) : Nat → List T → Option (Option T)
  | _, [] => some none
  | 0, _ :: _ => none
  | fuel + 1, x :: xs => if p x then some (some x) else findFuel p fuel xs

/-! Helper lemmas about the embedded operations. -/

theorem addAll_nil (repo : UserRepositoryImpl) : repo.addAll [] = repo := rfl

theorem addAll_cons (repo : UserRepositoryImpl) (x : User) (xs : List User) :
    repo.addAll (x :: xs) = (repo.add x).addAll xs := rfl

/-- Folding `add` over a list appends the whole list to the store. -/
theorem addAll_store (l : List User) (repo : UserRepositoryImpl) :
    (repo.addAll l).database.store = repo.database.store ++ l := by
  induction l generalizing repo with
  | nil => simp [addAll_nil]
  | cons x xs ih =>
    rw [addAll_cons, ih]
    simp [UserRepositoryImpl.add, InMemoryDatabase.add]

/-- When the store decomposes as a clean segment followed by a record
carrying the looked-up identifier, `getById` succeeds with that record:
the linear scan passes over the clean segment and stops at it. -/
theorem getById_first_match (repo : UserRepositoryImpl) (pre post : List User)
    (r : User) (id : String) (hstore : repo.database.store = pre ++ r :: post)
    (hpre : ∀ u ∈ pre, u.id ≠ id) (hr : r.id = id) :
    repo.getById id = .ok r := by
  unfold UserRepositoryImpl.getById InMemoryDatabase.getById
  rw [hstore, List.find?_append]
  have h1 : pre.find? (fun u => u.id == id) = none := by
    rw [List.find?_eq_none]
    intro x hx
    simp [hpre x hx]
  rw [h1]
  simp [hr]

/-- Characterization of the error path: `getById` throws exactly when no
record in the store carries the identifier. -/
theorem getById_error_iff (repo : UserRepositoryImpl) (id : String) :
    repo.getById id = .error .userNotFound ↔
      ∀ u ∈ repo.database.store, u.id ≠ id := by
  unfold UserRepositoryImpl.getById InMemoryDatabase.getById
  cases hfind : repo.database.store.find? (fun u => u.id == id) with
  | none =>
    rw [List.find?_eq_none] at hfind
    constructor
    · intro _ u hu he
      exact absurd (by simp [he]) (hfind u hu)
    · intro _
      rfl
  | some v =>
    constructor
    · intro h
      simp at h
    · intro h
      exfalso
      have hv : v.id = id := by simpa using List.find?_some hfind
      exact h v (List.mem_of_find?_eq_some hfind) hv

/-- A single operation never drops a record from the store. -/
theorem mem_store_step (db : InMemoryDatabase User) (op : Op) (u : User)
    (h : u ∈ db.store) : u ∈ (step db op).store := by
  cases op with
  | insert v => simp [step, InMemoryDatabase.add, h]
  | lookup id => simpa [step, InMemoryDatabase.getByIdCall]

/-- A run of operations never drops a record from the store. -/
theorem mem_store_run (ops : List Op) (db : InMemoryDatabase User) (u : User)
    (h : u ∈ db.store) : u ∈ (run db ops).store := by
  induction ops generalizing db with
  | nil => simpa [run]
  | cons op ops ih => exact ih (step db op) (mem_store_step db op u h)

/-- Any record inserted during a run is in the final store. -/
theorem insert_mem_run (ops : List Op) (db : InMemoryDatabase User) (u : User)
    (h : Op.insert u ∈ ops) : u ∈ (run db ops).store := by
  induction ops generalizing db with
  | nil => cases h
  | cons op ops ih =>
    rcases List.mem_cons.mp h with h1 | h2
    · subst h1
      exact mem_store_run ops (step db (Op.insert u)) u
        (by simp [step, InMemoryDatabase.add])
    · exact ih (step db op) h2

/-- The fuel-bounded scan completes, with the same answer as the scan,
whenever the fuel is at least the length of the list. -/
theorem findFuel_complete {T : Type} (p : T → Bool) (l : List T) (fuel : Nat)
    (h : l.length ≤ fuel) : findFuel p fuel l = some (l.find? p) := by
  induction l generalizing fuel with
  | nil => cases fuel <;> rfl
  | cons x xs ih =>
    cases fuel with
    | zero => simp at h
    | succ n =>
      by_cases hp : p x
      · simp [findFuel, hp, List.find?_cons_of_pos _ hp]
      · simp only [findFuel, hp, if_false, List.find?_cons_of_neg _ hp]
        exact ih n (Nat.le_of_succ_le_succ h)

/-! The claims. -/

/-- C1: for every record `r` inserted via `add` into a store whose prior
contents carry identifiers other than `r.id`, a subsequent
`getById(r.id)` — after arbitrarily many further inserts — returns a
record equal to `r`. -/
theorem getById_returns_inserted_record (pre post : List User) (r : User)
    (hpre : ∀ u ∈ pre, u.id ≠ r.id) :
    (((UserRepositoryImpl.mkNew.addAll pre).add r).addAll post).getById r.id
      = .ok r := by
  apply getById_first_match _ pre post r r.id _ hpre rfl
  rw [addAll_store]
  simp [UserRepositoryImpl.add, InMemoryDatabase.add, addAll_store,
    UserRepositoryImpl.mkNew, InMemoryDatabase.mkNew]

theorem getById_returns_inserted_record_witness :
    (∀ u ∈ [User.mk "0" "a" "b"], u.id ≠ (User.mk "1" "user1" "password1").id)
    ∧ (((UserRepositoryImpl.mkNew.addAll [User.mk "0" "a" "b"]).add
          (User.mk "1" "user1" "password1")).addAll
            [User.mk "2" "c" "d"]).getById (User.mk "1" "user1" "password1").id
        = .ok (User.mk "1" "user1" "password1") :=
  ⟨by decide,
   getById_returns_inserted_record [User.mk "0" "a" "b"] [User.mk "2" "c" "d"]
     (User.mk "1" "user1" "password1") (by decide)⟩

/-- C2: on a store built by a sequence of inserts, `getById(id)` fails
with the NotFound error if and only if no inserted record carries `id`;
on the empty store it fails for every `id`; and failure is signaled as an
error value (`Except.error`), not as a returned placeholder record. -/
theorem getById_notFound_iff_never_inserted (l : List User) (id : String) :
    ((UserRepositoryImpl.mkNew.addAll l).getById id = .error .userNotFound
      ↔ ∀ u ∈ l, u.id ≠ id)
    ∧ UserRepositoryImpl.mkNew.getById id = .error .userNotFound := by
  constructor
  · rw [getById_error_iff, addAll_store]
    simp [UserRepositoryImpl.mkNew, InMemoryDatabase.mkNew]
  · rfl

/-- C3: inserting two records with the same identifier raises no error —
the second insert appends as usual, leaving the store as the plain
concatenation — and on any store where `r1` is the first record carrying
the identifier and `r2` a later one, `getById` returns `r1`, the
first-inserted record with all its fields. -/
theorem duplicate_insert_first_match (pre mid : List User) (r1 r2 : User)
    (_hid : r2.id = r1.id) (hpre : ∀ u ∈ pre, u.id ≠ r1.id) :
    ((((UserRepositoryImpl.mkNew.addAll pre).add r1).addAll mid).add
        r2).database.store = pre ++ r1 :: (mid ++ [r2])
    ∧ ((((UserRepositoryImpl.mkNew.addAll pre).add r1).addAll mid).add
        r2).getById r1.id = .ok r1 := by
  have hstore : ((((UserRepositoryImpl.mkNew.addAll pre).add r1).addAll
      mid).add r2).database.store = pre ++ r1 :: (mid ++ [r2]) := by
    simp [UserRepositoryImpl.add, InMemoryDatabase.add, addAll_store,
      UserRepositoryImpl.mkNew, InMemoryDatabase.mkNew]
  exact ⟨hstore, getById_first_match _ pre (mid ++ [r2]) r1 r1.id hstore hpre rfl⟩

theorem duplicate_insert_first_match_witness :
    ((User.mk "1" "user2" "pw2").id = (User.mk "1" "user1" "pw1").id
      ∧ ∀ u ∈ [User.mk "0" "a" "b"], u.id ≠ (User.mk "1" "user1" "pw1").id)
    ∧ ((((UserRepositoryImpl.mkNew.addAll [User.mk "0" "a" "b"]).add
          (User.mk "1" "user1" "pw1")).addAll [User.mk "2" "c" "d"]).add
            (User.mk "1" "user2" "pw2")).getById
              (User.mk "1" "user1" "pw1").id = .ok (User.mk "1" "user1" "pw1") :=
  ⟨⟨by decide, by decide⟩,
   (duplicate_insert_first_match [User.mk "0" "a" "b"] [User.mk "2" "c" "d"]
     (User.mk "1" "user1" "pw1") (User.mk "1" "user2" "pw2")
     (by decide) (by decide)).2⟩

/-- C4: `add`/`insert` always succeeds — it is a total function with no
error outcome — and its entire effect is to append the record at the end
of the internal sequence: the resulting state is exactly the old store
with the record appended, at the database level and at the repository
level alike. -/
theorem add_appends_record {T : Type} (db : InMemoryDatabase T) (r : T)
    (repo : UserRepositoryImpl) (u : User) :
    db.add r = InMemoryDatabase.mk (db.store ++ [r])
    ∧ repo.add u
        = UserRepositoryImpl.mk (InMemoryDatabase.mk
            (repo.database.store ++ [u])) :=
  ⟨rfl, rfl⟩

/-- C5: the store never removes a record: after any sequence of insert
and lookup operations starting from the empty store, every record that
was inserted along the way is still present in the final store. -/
theorem inserted_records_persist (ops : List Op) (u : User)
    (h : Op.insert u ∈ ops) :
    u ∈ (run (InMemoryDatabase.mkNew User) ops).store :=
  insert_mem_run ops (InMemoryDatabase.mkNew User) u h

theorem inserted_records_persist_witness :
    Op.insert (User.mk "1" "user1" "password1") ∈
      [Op.insert (User.mk "1" "user1" "password1"), Op.lookup "2",
       Op.insert (User.mk "2" "user2" "password2")]
    ∧ User.mk "1" "user1" "password1" ∈
        (run (InMemoryDatabase.mkNew User)
          [Op.insert (User.mk "1" "user1" "password1"), Op.lookup "2",
           Op.insert (User.mk "2" "user2" "password2")]).store :=
  ⟨by decide,
   inserted_records_persist
     [Op.insert (User.mk "1" "user1" "password1"), Op.lookup "2",
      Op.insert (User.mk "2" "user2" "password2")]
     (User.mk "1" "user1" "password1") (by decide)⟩

/-- C6: the surrounding layers are pure delegation: for every controller
state and identifier, `UserController.getUser`,
`UserApplicationService.getUser` and `UserService.getUser` each return
exactly the repository's `getById` result (errors included), and the
`createUser` chain at each layer changes the state exactly by the
repository's `add` of the record constructed from the inputs, nothing
more. -/
theorem layers_pure_delegation (c : UserController)
    (id username password : String) :
    c.getUser id
      = c.userApplicationService.userService.userRepository.getById id
    ∧ c.userApplicationService.getUser id
        = c.userApplicationService.userService.userRepository.getById id
    ∧ c.userApplicationService.userService.getUser id
        = c.userApplicationService.userService.userRepository.getById id
    ∧ c.createUser id username password
        = UserController.mk (UserApplicationService.mk (UserService.mk
            (c.userApplicationService.userService.userRepository.add
              (User.mk id username password))))
    ∧ c.userApplicationService.createUser (User.mk id username password)
        = UserApplicationService.mk (UserService.mk
            (c.userApplicationService.userService.userRepository.add
              (User.mk id username password)))
    ∧ c.userApplicationService.userService.createUser
          (User.mk id username password)
        = UserService.mk
            (c.userApplicationService.userService.userRepository.add
              (User.mk id username password)) :=
  ⟨rfl, rfl, rfl, rfl, rfl, rfl⟩

/-- C7: the record constructed from the three caller-supplied strings
keeps them verbatim — each field projects back to the input, with no
hashing, validation or normalization — and after
`createUser(id, name, secret)` on a store not already containing `id`,
`getUser(id)` returns exactly that record. -/
theorem createUser_stores_verbatim (c : UserController)
    (id username password : String)
    (h : ∀ u ∈ c.userApplicationService.userService.userRepository.database.store,
      u.id ≠ id) :
    (User.mk id username password).id = id
    ∧ (User.mk id username password).username = username
    ∧ (User.mk id username password).password = password
    ∧ (c.createUser id username password).getUser id
        = .ok (User.mk id username password) := by
  refine ⟨rfl, rfl, rfl, ?_⟩
  exact getById_first_match
    (c.userApplicationService.userService.userRepository.add
      (User.mk id username password))
    c.userApplicationService.userService.userRepository.database.store []
    (User.mk id username password) id rfl h rfl

theorem createUser_stores_verbatim_witness :
    (∀ u ∈ (UserController.mk (UserApplicationService.mk (UserService.mk
        UserRepositoryImpl.mkNew))).userApplicationService.userService.userRepository.database.store,
      u.id ≠ "1")
    ∧ ((UserController.mk (UserApplicationService.mk (UserService.mk
          UserRepositoryImpl.mkNew))).createUser "1" "user1" "password1").getUser "1"
        = .ok (User.mk "1" "user1" "password1") :=
  ⟨by decide,
   (createUser_stores_verbatim
     (UserController.mk (UserApplicationService.mk (UserService.mk
       UserRepositoryImpl.mkNew))) "1" "user1" "password1" (by decide)).2.2.2⟩

/-- C8: both operations terminate on every finite store: the lookup scan
completes within at most as many loop iterations as the store has
records (the fuel-bounded scan with fuel equal to the store length never
runs out and computes the lookup result), and an insert is a single
append. -/
theorem operations_terminate (db : InMemoryDatabase User) (id : String)
    (u : User) :
    findFuel (fun x => x.id == id) db.store.length db.store
      = some (db.getById User.id id)
    ∧ (db.add u).store = db.store ++ [u] :=
  ⟨findFuel_complete _ db.store db.store.length (Nat.le_refl _), rfl⟩

/-- C9: a `getById` call never modifies the store: at the database level
and at the repository level, the receiver state after the call — whether
the result is a record or the NotFound error — is the state before it.
The embedded call pairs the returned value with the post-state of the
receiver, whose body reads the store and assigns to no field. -/
theorem getById_preserves_state (db : InMemoryDatabase User)
    (repo : UserRepositoryImpl) (id : String) :
    (db.getByIdCall User.id id).2 = db
    ∧ (repo.getByIdCall id).2 = repo :=
  ⟨rfl, rfl⟩

/-- C10: the database lookup is total — it returns `none` on a miss or
`some u` for a record `u` that is in the store and carries the queried
identifier, never faulting — and whenever some record with identifier
`id` is in the store, the repository's `getById` takes the success
branch, so the `throw` of "User not found" is unreachable. -/
theorem lookup_total_and_throw_unreachable (db : InMemoryDatabase User)
    (repo : UserRepositoryImpl) (id : String) :
    (db.getById User.id id = none
      ∨ ∃ u, db.getById User.id id = some u ∧ u ∈ db.store ∧ u.id = id)
    ∧ ((∃ u, u ∈ repo.database.store ∧ u.id = id)
        → ∃ u, repo.getById id = .ok u) := by
  constructor
  · unfold InMemoryDatabase.getById
    cases hfind : db.store.find? (fun x => x.id == id) with
    | none =>
      left
      rfl
    | some v =>
      right
      exact ⟨v, rfl, List.mem_of_find?_eq_some hfind,
        by simpa using List.find?_some hfind⟩
  · rintro ⟨u, hu, hid⟩
    unfold UserRepositoryImpl.getById InMemoryDatabase.getById
    cases hfind : repo.database.store.find? (fun x => x.id == id) with
    | none =>
      exfalso
      rw [List.find?_eq_none] at hfind
      exact absurd (by simp [hid]) (hfind u hu)
    | some v =>
      exact ⟨v, rfl⟩

theorem lookup_total_and_throw_unreachable_witness :
    (∃ u, u ∈ (UserRepositoryImpl.mk (InMemoryDatabase.mk
        [User.mk "1" "user1" "password1"])).database.store ∧ u.id = "1")
    ∧ ∃ u, (UserRepositoryImpl.mk (InMemoryDatabase.mk
        [User.mk "1" "user1" "password1"])).getById "1" = .ok u :=
  ⟨⟨User.mk "1" "user1" "password1", by decide, rfl⟩,
   (lookup_total_and_throw_unreachable (InMemoryDatabase.mk [])
     (UserRepositoryImpl.mk (InMemoryDatabase.mk
       [User.mk "1" "user1" "password1"])) "1").2
     ⟨User.mk "1" "user1" "password1", by decide, rfl⟩⟩

end DDD
